import Mathlib

/-!
Verification of the ellie server core (src/server/server.py).

The repository ships a single source file, `server/server.py`.  Its data
modules (`data/project_id.py`, `data/version.py`, `repository.py`, ...) are
not part of the available sources, so the definitions below that embed them
are modelled from the specification document and are marked as such in
their doc comments.  Everything else is a direct shallow embedding of the
Python code in `server/server.py`.
-/

namespace Ellie

/-- Splits a character list on a separator character, mirroring Python's
`str.split(sep)` for a one-character separator: the result always has one
more element than the number of separators, so `"".split(sep) == ['']`. -/
def splitOnChar (sep : Char) : List Char → List (List Char)
  | [] => [[]]
  | c :: rest =>
    match splitOnChar sep rest with
    | h :: t => if c == sep then [] :: h :: t else (c :: h) :: t
    | [] => [[c]]

/-- ASCII whitespace recognised by Python's `str.strip()` with no argument. -/
def isPySpace (c : Char) : Bool :=
  c == ' ' || c == '\t' || c == '\n' || c == '\r' || c == '\x0b' || c == '\x0c'

/-- Strips leading and trailing whitespace from a character list, mirroring
Python's `str.strip()`. -/
def pyTrim (l : List Char) : List Char :=
  (((l.dropWhile isPySpace).reverse).dropWhile isPySpace).reverse

/-- Numeric value of an ASCII digit character. -/
def digitVal (c : Char) : Nat := c.toNat - 48

/-- Accumulating digit scanner for Python's `int(str)` grammar: digits may
be separated by single underscores, and an underscore may neither repeat,
start, nor end the digit run. -/
def digitsCore : Nat → List Char → Option Nat
  | acc, [] => some acc
  | acc, [c] => if c.isDigit then some (acc * 10 + digitVal c) else none
  | acc, c :: d :: rest =>
    if c.isDigit then digitsCore (acc * 10 + digitVal c) (d :: rest)
    else if c == '_' && d.isDigit then digitsCore (acc * 10 + digitVal d) rest
    else none

/-- Parses a nonempty run of ASCII digits (with Python's underscore rule). -/
def pyParseNat : List Char → Option Nat
  | [] => none
  | c :: rest => if c.isDigit then digitsCore (digitVal c) rest else none

/-- Embedding of `parse_int` from `server/server.py` (lines 90-94): Python's
`int(string)` restricted to ASCII input -- optional surrounding whitespace,
an optional sign, then digits -- with any failure mapped to `none` by the
bare `except`. -/
def pyParseInt (s : String) : Option Int :=
  match pyTrim s.data with
  | '-' :: rest => (pyParseNat rest).map (fun n => -(n : Int))
  | '+' :: rest => (pyParseNat rest).map (fun n => (n : Int))
  | l => (pyParseNat l).map (fun n => (n : Int))

/-- A semantic version value (major.minor.patch), the `Version` class of the
repository's `data/version.py` (not under src/). -/
structure Version where
  major : Nat
  minor : Nat
  patch : Nat
deriving DecidableEq

/-- A nonempty all-digit character run, the shape of one version component. -/
def isDigitRun (l : List Char) : Bool :=
  !l.isEmpty && l.all Char.isDigit

/-- Numeric value of an all-digit character run. -/
def natOfDigits (l : List Char) : Nat :=
  l.foldl (fun acc c => acc * 10 + digitVal c) 0

/-- Parses one version component: a nonempty all-digit run, nothing else. -/
def parseNatStrict (l : List Char) : Option Nat :=
  if isDigitRun l then some (natOfDigits l) else none

/-- Modelled from the spec: `Version.from_string` of the repository's
`data/version.py` (not under src/).  Section 3 of the spec: parsing
"accepts a dotted three-component numeric string; rejects anything else
(including any leading/trailing garbage, pre-release/build metadata, or
missing components)". -/
def Version.fromString (s : String) : Option Version :=
  match splitOnChar '.' s.data with
  | [a, b, c] =>
    match parseNatStrict a, parseNatStrict b, parseNatStrict c with
    | some x, some y, some z => some ⟨x, y, z⟩
    | _, _, _ => none
  | _ => none

/-- Decidable description of the texts accepted by `Version.fromString`:
exactly three dot-separated nonempty all-digit components. -/
def isVersionShape (s : String) : Bool :=
  match splitOnChar '.' s.data with
  | [a, b, c] => isDigitRun a && isDigitRun b && isDigitRun c
  | _ => false

/-- Modelled from the spec: `Version.compare` of the repository's
`data/version.py` (not under src/).  Section 3 of the spec: "total order is
lexicographic on (major, minor, patch)". -/
def Version.compare (a b : Version) : Ordering :=
  if a.major < b.major then .lt
  else if b.major < a.major then .gt
  else if a.minor < b.minor then .lt
  else if b.minor < a.minor then .gt
  else if a.patch < b.patch then .lt
  else if b.patch < a.patch then .gt
  else .eq

/-- Modelled from the spec: the canonical dotted rendering of a version,
standing in for `Version.__str__` / `Version.to_json` of `data/version.py`
(not under src/). -/
def Version.render (v : Version) : String :=
  toString v.major ++ "." ++ toString v.minor ++ "." ++ toString v.patch

/-- A library name, the `PackageName` class of `data/package_name.py`
(not under src/): a (user, project) pair. -/
structure PackageName where
  user : String
  project : String
deriving DecidableEq

/-- Modelled from the spec: one catalog record, per section 6 of the spec
"one record per (PackageName, VersionValue) with its declared elm-version
compatibility"; this stands in for the repository's `data/package.py`
(not under src/). -/
structure PkgRecord where
  name : PackageName
  version : Version
  elmVersion : Version
deriving DecidableEq

/-- The package catalog state consumed by the repository layer. -/
abbrev Catalog := List PkgRecord

/-- Inserts a version into an ascending duplicate-free list, keeping it
ascending and duplicate-free. -/
def insertVersion (v : Version) : List Version → List Version
  | [] => [v]
  | w :: rest =>
    match Version.compare v w with
    | .lt => v :: w :: rest
    | .eq => w :: rest
    | .gt => w :: insertVersion v rest

/-- Modelled from the spec: `versions_for` of the repository layer (the
repository's `repository.get_versions_for_elm_version_and_package`, not
under src/).  Section 4.5 of the spec: "all versions of a named package
declared compatible with the given runtime version, ordered ascending by
VersionValue; empty sequence (not an error) when the package is unknown or
has no compatible versions". -/
def versionsFor (elmVersion : Version) (name : PackageName) (cat : Catalog) : List Version :=
  ((cat.filter (fun r => decide (r.name = name) && decide (r.elmVersion = elmVersion))).map
    (fun r => r.version)).foldr insertVersion []

/-- Lexicographic comparison of character lists under `Char` order. -/
def compareChars : List Char → List Char → Ordering
  | [], [] => .eq
  | [], _ :: _ => .lt
  | _ :: _, [] => .gt
  | a :: as, b :: bs =>
    if a < b then .lt else if b < a then .gt else compareChars as bs

/-- Sort key for search results: ascending name (user, then project), then
ascending version, per section 4.5 of the spec. -/
def pkgCompare (a b : PkgRecord) : Ordering :=
  match compareChars a.name.user.data b.name.user.data with
  | .lt => .lt
  | .gt => .gt
  | .eq =>
    match compareChars a.name.project.data b.name.project.data with
    | .lt => .lt
    | .gt => .gt
    | .eq => Version.compare a.version b.version

/-- Boolean "less or equal" derived from `pkgCompare`. -/
def pkgLe (a b : PkgRecord) : Bool :=
  match pkgCompare a b with
  | .gt => false
  | _ => true

/-- Insertion step of a simple insertion sort. -/
def insertLe (le : PkgRecord → PkgRecord → Bool) (x : PkgRecord) : List PkgRecord → List PkgRecord
  | [] => [x]
  | y :: rest => if le x y then x :: y :: rest else y :: insertLe le x rest

/-- Insertion sort of package records under `pkgLe`. -/
def sortPkgs (l : List PkgRecord) : List PkgRecord :=
  l.foldr (insertLe pkgLe) []

/-- Checks that the first list is a prefix of the second. -/
def isPrefixList : List Char → List Char → Bool
  | [], _ => true
  | _ :: _, [] => false
  | c :: cs, d :: ds => c == d && isPrefixList cs ds

/-- Checks that the first list occurs contiguously inside the second,
mirroring Python's `in` on strings. -/
def containsSub (needle : List Char) : List Char → Bool
  | [] => isPrefixList needle []
  | d :: ds => isPrefixList needle (d :: ds) || containsSub needle ds

/-- Lower-cases every character of a list. -/
def toLowerList (l : List Char) : List Char := l.map Char.toLower

/-- Modelled from the spec: the free-text query match of `repository.search`
(not under src/).  Section 4.5 of the spec: "substring/token match
(case-insensitive) over the user and project components of PackageName". -/
def matchesQuery (q : String) (n : PackageName) : Bool :=
  containsSub (toLowerList q.data) (toLowerList n.user.data) ||
    containsSub (toLowerList q.data) (toLowerList n.project.data)

/-- Modelled from the spec: `repository.search` (not under src/).  Section
4.5 of the spec: free-text match over package name components, filtered to
versions compatible with the requested elm version, ties broken by
ascending name then ascending version. -/
def repoSearch (cat : Catalog) (elmVersion : Version) (q : String) : List PkgRecord :=
  sortPkgs (cat.filter (fun r => decide (r.elmVersion = elmVersion) && matchesQuery q r.name))

/-- The current-shape alphabet of the project-id codec: lowercase letters. -/
def lowerAlpha : List Char :=
  ['a', 'b', 'c', 'd', 'e', 'f', 'g', 'h', 'i', 'j', 'k', 'l', 'm',
   'n', 'o', 'p', 'q', 'r', 's', 't', 'u', 'v', 'w', 'x', 'y', 'z']

/-- The legacy-shape alphabet of the project-id codec: decimal digits. -/
def digitChars : List Char :=
  ['0', '1', '2', '3', '4', '5', '6', '7', '8', '9']

/-- Fixed token length of the current project-id shape. -/
def currentLength : Nat := 8

/-- Fixed token length of the legacy project-id shape. -/
def legacyLength : Nat := 6

/-- Positional decoding of a token over an alphabet of size `B`, most
significant character first. -/
def decodeWith (B : Nat) (val : Char → Nat) (l : List Char) : Nat :=
  l.foldl (fun acc c => acc * B + val c) 0

/-- Positional encoding of a value as an `n`-character token over an
alphabet of size `B`, most significant character first. -/
def encodeWith (B : Nat) (chr : Nat → Char) : Nat → Nat → List Char
  | 0, _ => []
  | n + 1, v => encodeWith B chr n (v / B) ++ [chr (v % B)]

/-- Recognises the current project-id shape: a fixed-length case-sensitive
token over the lowercase alphabet. -/
def isCurrentShape (s : String) : Bool :=
  s.data.length == currentLength && s.data.all (fun c => lowerAlpha.contains c)

/-- Recognises the legacy project-id shape: a shorter all-digit token, a
charset disjoint from the current shape. -/
def isLegacyShape (s : String) : Bool :=
  s.data.length == legacyLength && s.data.all (fun c => digitChars.contains c)

/-- The `ProjectId` class of `data/project_id.py` (not under src/): an
underlying numeric identity plus the `is_old` flag tested by the routes in
`server/server.py`. -/
structure ProjectId where
  value : Nat
  is_old : Bool
deriving DecidableEq

/-- Modelled from the spec: `ProjectId.from_string` of `data/project_id.py`
(not under src/).  Section 4.1 of the spec: the codec accepts two disjoint
fixed shapes (distinct lengths and charsets), trying the legacy pattern
first and the current pattern second, and returns null on no match. -/
def ProjectId.fromString (s : String) : Option ProjectId :=
  if isLegacyShape s then
    some ⟨decodeWith 10 (fun c => digitChars.indexOf c) s.data, true⟩
  else if isCurrentShape s then
    some ⟨decodeWith 26 (fun c => lowerAlpha.indexOf c) s.data, false⟩
  else none

/-- Modelled from the spec: `ProjectId.__str__` of `data/project_id.py`
(not under src/).  Every rendered id uses the current shape: section 2 of
the spec says an observed legacy id "signals the caller to redirect clients
toward the equivalent current-shape URL", and the `is_old` redirect in
`server/server.py` (lines 260-264) only reaches that URL if rendering
upgrades the id; rendering a legacy id in its legacy shape would make that
redirect target the originally requested URL. -/
def ProjectId.render (p : ProjectId) : String :=
  String.mk (encodeWith 26 (fun d => lowerAlpha.getD d 'a') currentLength p.value)

/-- The `RevisionId` class of `data/revision_id.py` (not under src/): a
project id plus a sequence number.  The sequence is an `Int` because the
Python layer can build one from any parsed integer. -/
structure RevisionId where
  project : ProjectId
  seq : Int
deriving DecidableEq

/-- Modelled from the spec: `RevisionId.__str__` (not under src/), section
4.1: the trivial composition of the project-id rendering and the sequence
number. -/
def RevisionId.render (rid : RevisionId) : String :=
  rid.project.render ++ "/" ++ toString rid.seq

/-- A confirmed revision record: title, description.  Artifact pointers are
derived deterministically from the revision id (spec section 6) and are
not stored. -/
structure Revision where
  title : String
  description : String
deriving DecidableEq

/-- Modelled from the spec: the revision store's persisted state, section 6
of the spec: "one record per confirmed Revision keyed by RevisionId".  Both
textual shapes of a project id denote the same project (spec section 3),
so the key is the underlying numeric identity plus the sequence number. -/
abbrev Store := List ((Nat × Int) × Revision)

/-- Modelled from the spec: `repository.get_revision` (not under src/),
section 4.3 `get(RevisionId) -> Revision | null`: a point lookup. -/
def getRevision (st : Store) (rid : RevisionId) : Option Revision :=
  (st.find? (fun e => e.1.1 == rid.project.value && e.1.2 == rid.seq)).map (fun e => e.2)

/-- Modelled from the spec: `repository.revision_exists` (not under src/),
section 4.3 `exists(RevisionId) -> bool`: an existence probe. -/
def revisionExists (st : Store) (rid : RevisionId) : Bool :=
  (getRevision st rid).isSome

/-- The current highest confirmed sequence number of a project, `-1` when
the project has no revisions (spec section 4.3 state machine). -/
def highestSeq : Store → Nat → Int
  | [], _ => -1
  | ((pv, s), _) :: rest, p =>
    if pv == p then max s (highestSeq rest p) else highestSeq rest p

/-- Failure kind of `confirm`, spec section 7. -/
inductive ConfirmError
  | sequenceViolation
deriving DecidableEq

/-- Modelled from the spec: `repository.confirm` (not under src/), section
4.3: fails with `SequenceViolation` unless the sequence number is exactly
one greater than the current highest confirmed sequence number for that
project (`-1` when none exists, so the first confirmed sequence is 0); the
operation is a single atomic step, the store's one serialization point. -/
def confirm (st : Store) (rid : RevisionId) (rev : Revision) :
    Except ConfirmError Unit × Store :=
  if rid.seq = highestSeq st rid.project.value + 1 then
    (.ok (), ((rid.project.value, rid.seq), rev) :: st)
  else
    (.error .sequenceViolation, st)

/-- The `ApiError` carried to clients by the error handler of
`server/server.py` (lines 65-69): an HTTP status code plus a message. -/
structure ApiError where
  status : Nat
  message : String
deriving DecidableEq

/-- The artifact kinds of a revision: the source bundle and the compiled
result (spec sections 3 and 6). -/
inductive ArtifactKind
  | source
  | result
deriving DecidableEq

/-- Modelled from the spec: a storage key, section 6 of the spec:
"addressed by a deterministic key derived from RevisionId"; the key pairs
the artifact kind with the revision identity. -/
structure StorageKey where
  kind : ArtifactKind
  projectValue : Nat
  seq : Int
deriving DecidableEq

/-- Modelled from the spec: a time-limited write credential scoped to one
storage key (spec section 4.4); its lifetime policy is external, so only
the scoped key is modelled. -/
structure Credential where
  key : StorageKey
deriving DecidableEq

/-- Modelled from the spec: `repository.get_revision_upload_signature`
(not under src/): mints a write credential for the source-bundle key
derived from the given revision id. -/
def revisionUploadSignature (rid : RevisionId) : Credential :=
  ⟨⟨.source, rid.project.value, rid.seq⟩⟩

/-- Modelled from the spec: `repository.get_result_upload_signature`
(not under src/): mints a write credential for the compiled-result key
derived from the given revision id. -/
def resultUploadSignature (rid : RevisionId) : Credential :=
  ⟨⟨.result, rid.project.value, rid.seq⟩⟩

/-- The successful payload of the upload-authorization endpoint: the two
credentials returned under the `revision` and `result` JSON keys. -/
structure UploadResponse where
  revision : Credential
  result : Credential
deriving DecidableEq

/-- Message of the sequence-number validation failure in
`server/server.py` line 153. -/
def invalidSeqMsg : String := "Parameter `revisionNumber` must be positive"

/-- Message of the predecessor-gate failure in `server/server.py`
lines 157-158. -/
def predecessorMissingMsg (rid : RevisionId) : String :=
  "Revision with ID `" ++ rid.render ++ "` does not exist to be updated"

/-- Embedding of `get_existing_upload_urls` from `server/server.py`
(lines 136-165), the upload-authorization operation: validates the query
parameters, rejects any requested number below 1, gates on the existence
of revision `revisionNumber - 1`, and mints the two upload credentials for
that same revision id `expected_revision_id`. -/
def getExistingUploadUrls (st : Store) (projectId revisionNumber : Option String) :
    Except ApiError UploadResponse :=
  match projectId with
  | none => .error ⟨400, "Required parameter `projectId` was not provided"⟩
  | some ps =>
    match ProjectId.fromString ps with
    | none => .error ⟨400, "Unparseable `projectId` parameter"⟩
    | some pid =>
      match revisionNumber with
      | none => .error ⟨400, "Required parameter `revisionNumber` was not provided"⟩
      | some ns =>
        match pyParseInt ns with
        | none => .error ⟨400, "Unparseable `revisionNumber` must be an integer"⟩
        | some n =>
          if n < 1 then .error ⟨400, invalidSeqMsg⟩
          else
            let expectedRevisionId : RevisionId := ⟨pid, n - 1⟩
            if revisionExists st expectedRevisionId then
              .ok ⟨revisionUploadSignature expectedRevisionId,
                   resultUploadSignature expectedRevisionId⟩
            else
              .error ⟨400, predecessorMissingMsg expectedRevisionId⟩

/-- Embedding of the `tags` endpoint from `server/server.py` (lines
103-114): looks up the versions of a package compatible with the parsed
elm version and translates an empty result into a 404 error. -/
def tags (cat : Catalog) (elmVersion : Version) (user project : String) :
    Except ApiError (List String) :=
  let versions := versionsFor elmVersion ⟨user, project⟩ cat
  if versions.length = 0 then .error ⟨404, "Package not found"⟩
  else .ok (versions.map Version.render)

/-- Embedding of the `search` endpoint from `server/server.py` (lines
117-133): both query parameters must be present, the elm version must
parse, and the filtered packages are returned. -/
def searchEndpoint (cat : Catalog) (query elmVersion : Option String) :
    Except ApiError (List PkgRecord) :=
  match query with
  | none => .error ⟨400, "query field must be a string"⟩
  | some q =>
    match elmVersion with
    | none => .error ⟨400, "elm version must be a semver string like 0.18.0"⟩
    | some ev =>
      match Version.fromString ev with
      | none => .error ⟨400, "elm version must be a semver string like 0.18.0"⟩
      | some v => .ok (repoSearch cat v q)

/-- Responses of the `existing` page route. -/
inductive ExistingResponse
  | redirect301 (url : String)
  | redirect303 (url : String)
  | page (title description url : String)
deriving DecidableEq

/-- Embedding of the `existing` route from `server/server.py` (lines
259-278): a legacy project id is 301-redirected to the re-rendered URL, a
missing revision 303-redirects to `new`, and otherwise the editor page is
rendered with the revision's data. -/
def existingRoute (host : String) (st : Store) (pid : ProjectId) (n : Nat) :
    ExistingResponse :=
  if pid.is_old then
    .redirect301 ("/" ++ pid.render ++ "/" ++ toString n)
  else
    match getRevision st ⟨pid, (n : Int)⟩ with
    | none => .redirect303 "new"
    | some rev =>
      .page rev.title rev.description (host ++ "/" ++ pid.render ++ "/" ++ toString n)

/-- Responses of the `embed` page route. -/
inductive EmbedResponse
  | redirect301 (url : String)
  | page (data : Option (String × String × String))
deriving DecidableEq

/-- Embedding of the `embed` route from `server/server.py` (lines
298-315): same legacy redirect as `existing`; the page is rendered with or
without revision data depending on existence. -/
def embedRoute (host : String) (st : Store) (pid : ProjectId) (n : Nat) :
    EmbedResponse :=
  if pid.is_old then
    .redirect301 ("/embed/" ++ pid.render ++ "/" ++ toString n)
  else
    match getRevision st ⟨pid, (n : Int)⟩ with
    | none => .page none
    | some rev =>
      .page (some (rev.title, rev.description,
        host ++ "/embed/" ++ pid.render ++ "/" ++ toString n))

/-- The pieces of `urllib.parse.urlparse(url)` that the `oembed` handler
reads; the URL parser itself is a Python standard-library collaborator,
external to the repository. -/
structure ParsedUrl where
  hostname : Option String
  path : String

/-- The dimension computation of `oembed` (`server/server.py` lines
321-325): a missing or unparseable query parameter falls back to the
default. -/
def dimVal (dflt : Int) (p : Option String) : Int :=
  match p with
  | none => dflt
  | some s =>
    match pyParseInt s with
    | none => dflt
    | some n => n

/-- The iframe markup built by `oembed` (`server/server.py` line 358). -/
def iframeHtml (host : String) (pid : ProjectId) (n : Int) (width height : Int) : String :=
  "<iframe src=\"" ++ host ++ "/embed/" ++ pid.render ++ "/" ++ toString n ++
    "\" width=" ++ toString width ++ " height=" ++ toString height ++
    " frameBorder=\"0\" allowtransparency=\"true\"></iframe>"

/-- The JSON object returned by a successful `oembed` call
(`server/server.py` lines 350-359); every field value there is a string. -/
structure OembedResponse where
  width : String
  height : String
  type_ : String
  version : String
  title : String
  provider_name : String
  provider_url : String
  html : String
deriving DecidableEq

/-- Embedding of the `oembed` endpoint from `server/server.py` (lines
318-359): parses the dimension parameters with defaults 800 and 400,
validates the URL's hostname and path, resolves the revision, and answers
with the response object whose `width` and `height` fields carry the
literal strings but whose iframe markup uses the numeric dimensions. -/
def oembed (host : String) (st : Store) (purl : ParsedUrl)
    (widthParam heightParam : Option String) : Except ApiError OembedResponse :=
  let width := dimVal 800 widthParam
  let height := dimVal 400 heightParam
  match purl.hostname with
  | none => .error ⟨404, "revision not found"⟩
  | some h =>
    if h == "" then .error ⟨404, "revision not found"⟩
    else if !containsSub "ellie-app.com".data h.data then .error ⟨404, "revision not found"⟩
    else if purl.path == "" then .error ⟨404, "revision not found"⟩
    else
      match splitOnChar '/' purl.path.data with
      | [_, pidStr, rnStr] =>
        match ProjectId.fromString (String.mk pidStr) with
        | none => .error ⟨404, "revision not found"⟩
        | some pid =>
          match pyParseInt (String.mk rnStr) with
          | none => .error ⟨404, "revision not found"⟩
          | some rn =>
            match getRevision st ⟨pid, rn⟩ with
            | none => .error ⟨404, "revision not found"⟩
            | some rev =>
              .ok ⟨"width", "height", "rich", "1.0", rev.title,
                   "ellie-app.com", "https://ellie-app.com",
                   iframeHtml host pid rn width height⟩
      | _ => .error ⟨404, "revision not found"⟩

theorem compare_lt_iff (a b : Version) :
    Version.compare a b = .lt ↔
      (a.major < b.major ∨ (a.major = b.major ∧
        (a.minor < b.minor ∨ (a.minor = b.minor ∧ a.patch < b.patch)))) := by
  unfold Version.compare
  split_ifs <;> simp_all <;> omega

theorem compare_eq_iff (a b : Version) : Version.compare a b = .eq ↔ a = b := by
  cases a with
  | mk a1 a2 a3 =>
    cases b with
    | mk b1 b2 b3 =>
      simp only [Version.mk.injEq]
      unfold Version.compare
      split_ifs <;> simp_all <;> omega

theorem compare_gt_iff (a b : Version) :
    Version.compare a b = .gt ↔ Version.compare b a = .lt := by
  rw [compare_lt_iff]
  unfold Version.compare
  split_ifs <;> simp_all <;> omega

theorem compare_trans {a b c : Version}
    (hab : Version.compare a b = .lt) (hbc : Version.compare b c = .lt) :
    Version.compare a c = .lt := by
  rw [compare_lt_iff] at hab hbc ⊢
  omega

/-- C8: version comparison is a total order, lexicographic on
(major, minor, patch): comparing a version with itself yields `eq`,
equality under `compare` is exactly component-wise equality, `lt` is the
lexicographic strict order, `gt` is the mirror of `lt`, and `lt` is
transitive. -/
theorem version_compare_total_order :
    (∀ v : Version, Version.compare v v = .eq) ∧
    (∀ a b : Version, Version.compare a b = .eq ↔ a = b) ∧
    (∀ a b : Version, Version.compare a b = .lt ↔
      (a.major < b.major ∨ (a.major = b.major ∧
        (a.minor < b.minor ∨ (a.minor = b.minor ∧ a.patch < b.patch))))) ∧
    (∀ a b : Version, Version.compare a b = .gt ↔ Version.compare b a = .lt) ∧
    (∀ a b c : Version, Version.compare a b = .lt → Version.compare b c = .lt →
      Version.compare a c = .lt) :=
  ⟨fun v => (compare_eq_iff v v).mpr rfl,
   compare_eq_iff,
   compare_lt_iff,
   compare_gt_iff,
   fun _ _ _ hab hbc => compare_trans hab hbc⟩

/-- C8 witness: the total-order facts applied at concrete versions. -/
theorem version_compare_total_order_witness :
    Version.compare ⟨0, 18, 0⟩ ⟨0, 18, 0⟩ = .eq ∧ Version.compare ⟨0, 17, 1⟩ ⟨1, 0, 0⟩ = .lt :=
  ⟨version_compare_total_order.1 ⟨0, 18, 0⟩,
   version_compare_total_order.2.2.2.2 ⟨0, 17, 1⟩ ⟨0, 18, 0⟩ ⟨1, 0, 0⟩ (by decide) (by decide)⟩

theorem mem_insertVersion {v x : Version} {l : List Version}
    (h : x ∈ insertVersion v l) : x = v ∨ x ∈ l := by
  induction l with
  | nil => simpa [insertVersion] using h
  | cons w rest ih =>
    unfold insertVersion at h
    cases hc : Version.compare v w with
    | lt =>
      rw [hc] at h
      rcases List.mem_cons.mp h with h1 | h1
      · exact Or.inl h1
      · exact Or.inr h1
    | eq =>
      rw [hc] at h
      exact Or.inr h
    | gt =>
      rw [hc] at h
      rcases List.mem_cons.mp h with h1 | h1
      · exact Or.inr (List.mem_cons.mpr (Or.inl h1))
      · rcases ih h1 with h2 | h2
        · exact Or.inl h2
        · exact Or.inr (List.mem_cons.mpr (Or.inr h2))

theorem pairwise_insertVersion {v : Version} {l : List Version}
    (h : l.Pairwise (fun a b => Version.compare a b = .lt)) :
    (insertVersion v l).Pairwise (fun a b => Version.compare a b = .lt) := by
  induction l with
  | nil => simp [insertVersion]
  | cons w rest ih =>
    rcases List.pairwise_cons.mp h with ⟨hw, hrest⟩
    unfold insertVersion
    cases hc : Version.compare v w with
    | lt =>
      refine List.pairwise_cons.mpr ⟨?_, h⟩
      intro x hx
      rcases List.mem_cons.mp hx with h1 | h1
      · exact h1 ▸ hc
      · exact compare_trans hc (hw x h1)
    | eq => exact h
    | gt =>
      refine List.pairwise_cons.mpr ⟨?_, ih hrest⟩
      intro x hx
      rcases mem_insertVersion hx with h1 | h1
      · exact h1 ▸ (compare_gt_iff v w).mp hc
      · exact hw x h1

theorem pairwise_versionSort (l : List Version) :
    (l.foldr insertVersion []).Pairwise (fun a b => Version.compare a b = .lt) := by
  induction l with
  | nil => simp
  | cons v rest ih => exact pairwise_insertVersion ih

/-- C4: `versions_for` always returns a strictly ascending (hence
duplicate-free) sequence of versions; it returns the empty sequence rather
than an error when nothing matches, and the `tags` API endpoint answers
with a 404 error exactly when that sequence is empty. -/
theorem versions_for_sorted_api_contract :
    (∀ (ev : Version) (name : PackageName) (cat : Catalog),
      (versionsFor ev name cat).Pairwise (fun a b => Version.compare a b = .lt)) ∧
    (∀ (ev : Version) (name : PackageName) (cat : Catalog),
      (versionsFor ev name cat).Nodup) ∧
    (∀ (cat : Catalog) (ev : Version) (user project : String),
      tags cat ev user project = .error ⟨404, "Package not found"⟩ ↔
        versionsFor ev ⟨user, project⟩ cat = []) := by
  have hpw : ∀ (ev : Version) (name : PackageName) (cat : Catalog),
      (versionsFor ev name cat).Pairwise (fun a b => Version.compare a b = .lt) :=
    fun ev name cat => pairwise_versionSort _
  refine ⟨hpw, fun ev name cat => ?_, fun cat ev user project => ?_⟩
  · refine (hpw ev name cat).imp ?_
    intro a b hab hne
    subst hne
    rw [(compare_eq_iff a a).mpr rfl] at hab
    cases hab
  · unfold tags
    constructor
    · intro h
      by_cases hlen : (versionsFor ev ⟨user, project⟩ cat).length = 0
      · exact List.length_eq_zero.mp hlen
      · rw [if_neg hlen] at h
        cases h
    · intro h
      rw [h]
      rfl

/-- C4 witness: the endpoint contract applied at a concrete catalog. -/
theorem versions_for_sorted_api_contract_witness :
    tags [] ⟨0, 18, 0⟩ "elm-lang" "core" = .error ⟨404, "Package not found"⟩ ∧
    (versionsFor ⟨0, 18, 0⟩ ⟨"elm-lang", "core"⟩
      [⟨⟨"elm-lang", "core"⟩, ⟨5, 0, 0⟩, ⟨0, 18, 0⟩⟩,
       ⟨⟨"elm-lang", "core"⟩, ⟨4, 0, 0⟩, ⟨0, 18, 0⟩⟩]).Nodup :=
  ⟨(versions_for_sorted_api_contract.2.2 [] ⟨0, 18, 0⟩ "elm-lang" "core").mpr rfl,
   versions_for_sorted_api_contract.2.1 ⟨0, 18, 0⟩ ⟨"elm-lang", "core"⟩
     [⟨⟨"elm-lang", "core"⟩, ⟨5, 0, 0⟩, ⟨0, 18, 0⟩⟩,
      ⟨⟨"elm-lang", "core"⟩, ⟨4, 0, 0⟩, ⟨0, 18, 0⟩⟩]⟩

/-- C5: version parsing accepts exactly a dotted three-component numeric
string -- "0.18.0" parses to (0, 18, 0), while "0.18" and "v0.18.0" are
rejected, and in general a text parses successfully precisely when it
consists of three dot-separated nonempty all-digit runs; the `search`
endpoint turns a rejected elm version into the invalid-format client
error. -/
theorem version_parse_exact_triple :
    Version.fromString "0.18.0" = some ⟨0, 18, 0⟩ ∧
    Version.fromString "0.18" = none ∧
    Version.fromString "v0.18.0" = none ∧
    (∀ s : String, (Version.fromString s).isSome = isVersionShape s) ∧
    (∀ (cat : Catalog) (q ev : String), Version.fromString ev = none →
      searchEndpoint cat (some q) (some ev) =
        .error ⟨400, "elm version must be a semver string like 0.18.0"⟩) := by
  refine ⟨rfl, rfl, rfl, fun s => ?_, fun cat q ev h => ?_⟩
  · unfold Version.fromString isVersionShape
    rcases hsp : splitOnChar '.' s.data with _ | ⟨a, _ | ⟨b, _ | ⟨c, _ | ⟨d, t⟩⟩⟩⟩ <;>
      (simp only [Option.isSome]; try rfl)
    by_cases ha : isDigitRun a <;> by_cases hb : isDigitRun b <;> by_cases hc : isDigitRun c <;>
      simp [parseNatStrict, ha, hb, hc]
  · simp [searchEndpoint, h]

/-- C5 witness: the invalid-format mapping applied at a concrete request. -/
theorem version_parse_exact_triple_witness :
    searchEndpoint [] (some "query") (some "0.18") =
      .error ⟨400, "elm version must be a semver string like 0.18.0"⟩ :=
  version_parse_exact_triple.2.2.2.2 [] "query" "0.18" rfl

theorem highestSeq_cons (p : Nat) (s : Int) (rev : Revision) (st : Store) :
    highestSeq (((p, s), rev) :: st) p = max s (highestSeq st p) := by
  simp [highestSeq]

theorem confirm_eq_of_eq (st : Store) (rid : RevisionId) (rev : Revision)
    (h : rid.seq = highestSeq st rid.project.value + 1) :
    confirm st rid rev = (.ok (), ((rid.project.value, rid.seq), rev) :: st) := by
  unfold confirm
  rw [if_pos h]

theorem confirm_eq_of_ne (st : Store) (rid : RevisionId) (rev : Revision)
    (h : ¬ (rid.seq = highestSeq st rid.project.value + 1)) :
    confirm st rid rev = (.error .sequenceViolation, st) := by
  unfold confirm
  rw [if_neg h]

/-- C9: when two `confirm` calls race for the same (project, sequence)
pair, whichever is linearized first succeeds and the other fails with
`SequenceViolation` while leaving the store -- hence the project's highest
confirmed sequence number -- unchanged; in general a failed `confirm`
never changes the store. -/
theorem confirm_race_exactly_one :
    (∀ (st : Store) (rid : RevisionId) (rev : Revision),
      (confirm st rid rev).1 = .error .sequenceViolation → (confirm st rid rev).2 = st) ∧
    (∀ (st : Store) (pid : ProjectId) (s : Int) (rev1 rev2 : Revision),
      s = highestSeq st pid.value + 1 →
      (confirm st ⟨pid, s⟩ rev1).1 = .ok () ∧
      (confirm (confirm st ⟨pid, s⟩ rev1).2 ⟨pid, s⟩ rev2).1 = .error .sequenceViolation ∧
      (confirm (confirm st ⟨pid, s⟩ rev1).2 ⟨pid, s⟩ rev2).2 = (confirm st ⟨pid, s⟩ rev1).2 ∧
      highestSeq (confirm (confirm st ⟨pid, s⟩ rev1).2 ⟨pid, s⟩ rev2).2 pid.value =
        highestSeq (confirm st ⟨pid, s⟩ rev1).2 pid.value) := by
  constructor
  · intro st rid rev h
    by_cases hc : rid.seq = highestSeq st rid.project.value + 1
    · rw [confirm_eq_of_eq st rid rev hc] at h
      cases h
    · rw [confirm_eq_of_ne st rid rev hc]
  · intro st pid s rev1 rev2 h
    have hok := confirm_eq_of_eq st ⟨pid, s⟩ rev1 h
    have hsnd : (confirm st ⟨pid, s⟩ rev1).2 = ((pid.value, s), rev1) :: st := by
      rw [hok]
    have h3 : ¬ ((⟨pid, s⟩ : RevisionId).seq =
        highestSeq ((confirm st ⟨pid, s⟩ rev1).2)
          ((⟨pid, s⟩ : RevisionId).project.value) + 1) := by
      rw [hsnd]
      show ¬ (s = highestSeq (((pid.value, s), rev1) :: st) pid.value + 1)
      rw [highestSeq_cons]
      omega
    have herr := confirm_eq_of_ne ((confirm st ⟨pid, s⟩ rev1).2) ⟨pid, s⟩ rev2 h3
    exact ⟨by rw [hok], by rw [herr], by rw [herr], by rw [herr]⟩

/-- C9 witness: the race outcome at a concrete store: an empty project,
sequence 0, two competing revisions. -/
theorem confirm_race_exactly_one_witness :
    (confirm ([] : Store) ⟨⟨7, false⟩, 0⟩ ⟨"a", "b"⟩).1 = .ok () ∧
    (confirm (confirm ([] : Store) ⟨⟨7, false⟩, 0⟩ ⟨"a", "b"⟩).2 ⟨⟨7, false⟩, 0⟩ ⟨"c", "d"⟩).1 =
      .error .sequenceViolation ∧
    (confirm (confirm ([] : Store) ⟨⟨7, false⟩, 0⟩ ⟨"a", "b"⟩).2 ⟨⟨7, false⟩, 0⟩ ⟨"c", "d"⟩).2 =
      (confirm ([] : Store) ⟨⟨7, false⟩, 0⟩ ⟨"a", "b"⟩).2 ∧
    highestSeq (confirm (confirm ([] : Store) ⟨⟨7, false⟩, 0⟩ ⟨"a", "b"⟩).2
        ⟨⟨7, false⟩, 0⟩ ⟨"c", "d"⟩).2 7 =
      highestSeq (confirm ([] : Store) ⟨⟨7, false⟩, 0⟩ ⟨"a", "b"⟩).2 7 :=
  confirm_race_exactly_one.2 [] ⟨7, false⟩ 0 ⟨"a", "b"⟩ ⟨"c", "d"⟩ (by decide)

theorem getExistingUploadUrls_eq (st : Store) (ps ns : String) (pid : ProjectId) (n : Int)
    (hp : ProjectId.fromString ps = some pid) (hn : pyParseInt ns = some n) :
    getExistingUploadUrls st (some ps) (some ns) =
      if n < 1 then .error ⟨400, invalidSeqMsg⟩
      else if revisionExists st ⟨pid, n - 1⟩ then
        .ok ⟨revisionUploadSignature ⟨pid, n - 1⟩, resultUploadSignature ⟨pid, n - 1⟩⟩
      else .error ⟨400, predecessorMissingMsg ⟨pid, n - 1⟩⟩ := by
  simp only [getExistingUploadUrls, hp, hn]

theorem predecessorMsg_ne_invalidMsg (rid : RevisionId) :
    predecessorMissingMsg rid ≠ invalidSeqMsg := by
  intro h
  have h2 := congrArg String.length h
  unfold predecessorMissingMsg invalidSeqMsg at h2
  rw [String.length_append, String.length_append] at h2
  have e1 : ("Revision with ID `" : String).length = 18 := rfl
  have e2 : ("` does not exist to be updated" : String).length = 30 := rfl
  have e3 : ("Parameter `revisionNumber` must be positive" : String).length = 43 := rfl
  omega

/-- C1 counterexample: the upload-authorization endpoint rejects requested
sequence number 0 with the client-input error, even for a project whose
revision 0 exists, contradicting "requested sequence number 0 always
succeeds regardless of existing revisions". -/
theorem authorize_zero_counterexample :
    getExistingUploadUrls [((0, 0), ⟨"t", "d"⟩)] (some "aaaaaaaa") (some "0") =
      .error ⟨400, invalidSeqMsg⟩ := rfl

/-- C1 (amended): for a well-formed project id and integer sequence
number, a requested number `n ≥ 1` is authorized exactly when revision
`n - 1` exists, while any requested number `n ≤ 0` -- zero included -- is
rejected with the InvalidArgument-style 400 error, never with the
predecessor-missing error. -/
theorem authorize_gate_amended :
    ∀ (st : Store) (ps ns : String) (pid : ProjectId) (n : Int),
      ProjectId.fromString ps = some pid → pyParseInt ns = some n →
      ((1 ≤ n →
        ((∃ r, getExistingUploadUrls st (some ps) (some ns) = .ok r) ↔
          revisionExists st ⟨pid, n - 1⟩ = true)) ∧
       (n ≤ 0 →
         getExistingUploadUrls st (some ps) (some ns) = .error ⟨400, invalidSeqMsg⟩)) := by
  intro st ps ns pid n hp hn
  rw [getExistingUploadUrls_eq st ps ns pid n hp hn]
  constructor
  · intro h1
    rw [if_neg (by omega : ¬ (n < 1))]
    cases hE : revisionExists st ⟨pid, n - 1⟩ <;> simp [hE]
  · intro h0
    rw [if_pos (by omega : n < 1)]

/-- C1 witness: with revision 0 confirmed, requesting 1 succeeds and
requesting -1 fails with the InvalidArgument-style error. -/
theorem authorize_gate_amended_witness :
    (∃ r, getExistingUploadUrls [((0, 0), ⟨"t", "d"⟩)] (some "aaaaaaaa") (some "1") = .ok r) ∧
    getExistingUploadUrls [((0, 0), ⟨"t", "d"⟩)] (some "aaaaaaaa") (some "-1") =
      .error ⟨400, invalidSeqMsg⟩ :=
  ⟨((authorize_gate_amended [((0, 0), ⟨"t", "d"⟩)] "aaaaaaaa" "1" ⟨0, false⟩ 1 rfl rfl).1
      (by decide)).mpr (by decide),
   (authorize_gate_amended [((0, 0), ⟨"t", "d"⟩)] "aaaaaaaa" "-1" ⟨0, false⟩ (-1) rfl rfl).2
      (by decide)⟩

/-- C2 counterexample: with revision 1 of project "aaaaaaaa" confirmed,
requesting upload authorization for sequence number 2 succeeds but returns
credentials scoped to the storage keys of revision 1 -- the id used in the
existence gate -- not to revision 2's keys. -/
theorem upload_keys_counterexample :
    getExistingUploadUrls [((0, 1), ⟨"t", "d"⟩)] (some "aaaaaaaa") (some "2") =
      .ok ⟨⟨⟨.source, 0, 1⟩⟩, ⟨⟨.result, 0, 1⟩⟩⟩ ∧
    (⟨⟨.source, 0, 1⟩⟩ : Credential) ≠ revisionUploadSignature ⟨⟨0, false⟩, 2⟩ ∧
    (⟨⟨.result, 0, 1⟩⟩ : Credential) ≠ resultUploadSignature ⟨⟨0, false⟩, 2⟩ :=
  ⟨rfl, by decide, by decide⟩

/-- C2 (amended): whenever upload authorization for requested sequence
number n succeeds, both returned credentials are scoped to keys derived
deterministically from `RevisionId(project, n - 1)` -- the predecessor id
whose existence was checked -- one for the source bundle and one for the
compiled result, with two distinct keys. -/
theorem upload_keys_predecessor :
    ∀ (st : Store) (ps ns : String) (pid : ProjectId) (n : Int) (r : UploadResponse),
      ProjectId.fromString ps = some pid → pyParseInt ns = some n →
      getExistingUploadUrls st (some ps) (some ns) = .ok r →
      r.revision = revisionUploadSignature ⟨pid, n - 1⟩ ∧
      r.result = resultUploadSignature ⟨pid, n - 1⟩ ∧
      r.revision.key ≠ r.result.key := by
  intro st ps ns pid n r hp hn h
  rw [getExistingUploadUrls_eq st ps ns pid n hp hn] at h
  by_cases h1 : n < 1
  · rw [if_pos h1] at h
    cases h
  · rw [if_neg h1] at h
    by_cases hE : revisionExists st ⟨pid, n - 1⟩ = true
    · rw [if_pos hE] at h
      cases h
      refine ⟨rfl, rfl, ?_⟩
      simp [revisionUploadSignature, resultUploadSignature]
    · rw [if_neg hE] at h
      cases h

/-- C2 witness: the amended key-scoping fact at a concrete successful
request. -/
theorem upload_keys_predecessor_witness :
    (⟨⟨⟨.source, 0, 1⟩⟩, ⟨⟨.result, 0, 1⟩⟩⟩ : UploadResponse).revision =
      revisionUploadSignature ⟨⟨0, false⟩, (2 : Int) - 1⟩ ∧
    (⟨⟨⟨.source, 0, 1⟩⟩, ⟨⟨.result, 0, 1⟩⟩⟩ : UploadResponse).result =
      resultUploadSignature ⟨⟨0, false⟩, (2 : Int) - 1⟩ ∧
    (⟨⟨⟨.source, 0, 1⟩⟩, ⟨⟨.result, 0, 1⟩⟩⟩ : UploadResponse).revision.key ≠
      (⟨⟨⟨.source, 0, 1⟩⟩, ⟨⟨.result, 0, 1⟩⟩⟩ : UploadResponse).result.key :=
  upload_keys_predecessor [((0, 1), ⟨"t", "d"⟩)] "aaaaaaaa" "2" ⟨0, false⟩ 2
    ⟨⟨⟨.source, 0, 1⟩⟩, ⟨⟨.result, 0, 1⟩⟩⟩ rfl rfl rfl

/-- C3: the two failure modes of upload authorization are distinguishable
by the caller: a requested number below 1 always produces the fixed
InvalidArgument-style message, a failed predecessor-existence gate always
produces the predecessor-missing message naming the checked revision id,
and no predecessor-missing message ever equals the InvalidArgument one. -/
theorem upload_errors_distinguishable :
    ∀ (st : Store) (ps ns : String) (pid : ProjectId) (n : Int),
      ProjectId.fromString ps = some pid → pyParseInt ns = some n →
      ((n < 1 →
         getExistingUploadUrls st (some ps) (some ns) = .error ⟨400, invalidSeqMsg⟩) ∧
       (1 ≤ n → revisionExists st ⟨pid, n - 1⟩ = false →
         getExistingUploadUrls st (some ps) (some ns) =
           .error ⟨400, predecessorMissingMsg ⟨pid, n - 1⟩⟩) ∧
       (∀ rid : RevisionId, predecessorMissingMsg rid ≠ invalidSeqMsg)) := by
  intro st ps ns pid n hp hn
  rw [getExistingUploadUrls_eq st ps ns pid n hp hn]
  refine ⟨fun h1 => ?_, fun h1 hE => ?_, predecessorMsg_ne_invalidMsg⟩
  · rw [if_pos h1]
  · rw [if_neg (by omega : ¬ (n < 1)), if_neg (by simp [hE])]

/-- C3 witness: the two distinguishable errors at concrete requests. -/
theorem upload_errors_distinguishable_witness :
    getExistingUploadUrls [] (some "aaaaaaaa") (some "0") = .error ⟨400, invalidSeqMsg⟩ ∧
    getExistingUploadUrls [] (some "aaaaaaaa") (some "1") =
      .error ⟨400, predecessorMissingMsg ⟨⟨0, false⟩, (1 : Int) - 1⟩⟩ ∧
    predecessorMissingMsg ⟨⟨0, false⟩, (1 : Int) - 1⟩ ≠ invalidSeqMsg :=
  ⟨(upload_errors_distinguishable [] "aaaaaaaa" "0" ⟨0, false⟩ 0 rfl rfl).1 (by decide),
   (upload_errors_distinguishable [] "aaaaaaaa" "1" ⟨0, false⟩ 1 rfl rfl).2.1
     (by decide) (by decide),
   (upload_errors_distinguishable [] "aaaaaaaa" "1" ⟨0, false⟩ 1 rfl rfl).2.2
     ⟨⟨0, false⟩, (1 : Int) - 1⟩⟩

theorem decodeWith_append (B : Nat) (val : Char → Nat) (l : List Char) (c : Char) :
    decodeWith B val (l ++ [c]) = decodeWith B val l * B + val c := by
  simp [decodeWith, List.foldl_append]

theorem decodeWith_lt (B : Nat) (val : Char → Nat) :
    ∀ l : List Char, (∀ c ∈ l, val c < B) → decodeWith B val l < B ^ l.length := by
  intro l
  induction l using List.reverseRecOn with
  | nil =>
    intro _
    simp [decodeWith]
  | append_singleton l c ih =>
    intro h
    have ihl : decodeWith B val l < B ^ l.length :=
      ih (fun x hx => h x (List.mem_append.mpr (Or.inl hx)))
    have hc : val c < B := h c (List.mem_append.mpr (Or.inr (List.mem_singleton.mpr rfl)))
    have h2 : decodeWith B val l * B + val c < (decodeWith B val l + 1) * B := by
      rw [Nat.add_mul, Nat.one_mul]
      exact Nat.add_lt_add_left hc _
    have h3 : (decodeWith B val l + 1) * B ≤ B ^ l.length * B :=
      Nat.mul_le_mul_right _ ihl
    rw [decodeWith_append, List.length_append, List.length_singleton, pow_succ]
    exact lt_of_lt_of_le h2 h3

theorem encodeWith_length (B : Nat) (chr : Nat → Char) (n : Nat) :
    ∀ v : Nat, (encodeWith B chr n v).length = n := by
  induction n with
  | zero => intro v; rfl
  | succ k ih =>
    intro v
    simp [encodeWith, ih]

theorem encodeWith_mem (B : Nat) (chr : Nat → Char) (hB : 0 < B) (n : Nat) :
    ∀ (v : Nat) (c : Char), c ∈ encodeWith B chr n v → ∃ d, d < B ∧ c = chr d := by
  induction n with
  | zero =>
    intro v c hc
    cases hc
  | succ k ih =>
    intro v c hc
    rcases List.mem_append.mp hc with h1 | h1
    · exact ih (v / B) c h1
    · exact ⟨v % B, Nat.mod_lt _ hB, List.mem_singleton.mp h1⟩

theorem decode_encodeWith (B : Nat) (val : Char → Nat) (chr : Nat → Char) (hB : 0 < B)
    (hvc : ∀ d, d < B → val (chr d) = d) :
    ∀ (n v : Nat), v < B ^ n → decodeWith B val (encodeWith B chr n v) = v := by
  intro n
  induction n with
  | zero =>
    intro v hv
    simp [pow_zero] at hv
    simp [encodeWith, decodeWith, hv]
  | succ k ih =>
    intro v hv
    have hdiv : v / B < B ^ k := by
      rw [Nat.div_lt_iff_lt_mul hB]
      rw [pow_succ] at hv
      exact hv
    rw [encodeWith, decodeWith_append, ih (v / B) hdiv, hvc (v % B) (Nat.mod_lt _ hB)]
    rw [Nat.mul_comm]
    exact Nat.div_add_mod v B

theorem encode_decodeWith (B : Nat) (val : Char → Nat) (chr : Nat → Char) (hB : 0 < B) :
    ∀ l : List Char, (∀ c ∈ l, val c < B) → (∀ c ∈ l, chr (val c) = c) →
      encodeWith B chr l.length (decodeWith B val l) = l := by
  intro l
  induction l using List.reverseRecOn with
  | nil =>
    intro _ _
    rfl
  | append_singleton l c ih =>
    intro h hcv
    have hc : val c < B := h c (List.mem_append.mpr (Or.inr (List.mem_singleton.mpr rfl)))
    have ihl := ih (fun x hx => h x (List.mem_append.mpr (Or.inl hx)))
      (fun x hx => hcv x (List.mem_append.mpr (Or.inl hx)))
    rw [decodeWith_append, List.length_append, List.length_singleton, encodeWith]
    have hdiv : (decodeWith B val l * B + val c) / B = decodeWith B val l := by
      rw [Nat.mul_comm, Nat.mul_add_div hB, Nat.div_eq_of_lt hc, Nat.add_zero]
    have hmod : (decodeWith B val l * B + val c) % B = val c := by
      rw [Nat.mul_comm, Nat.mul_add_mod, Nat.mod_eq_of_lt hc]
    rw [hdiv, hmod, ihl, hcv c (List.mem_append.mpr (Or.inr (List.mem_singleton.mpr rfl)))]

theorem lower_facts : ∀ c ∈ lowerAlpha,
    lowerAlpha.indexOf c < 26 ∧ lowerAlpha.getD (lowerAlpha.indexOf c) 'a' = c := by
  decide

theorem lower_getD_facts : ∀ d, d < 26 →
    lowerAlpha.indexOf (lowerAlpha.getD d 'a') = d ∧ lowerAlpha.getD d 'a' ∈ lowerAlpha := by
  decide

theorem digit_facts : ∀ c ∈ digitChars, digitChars.indexOf c < 10 := by
  decide

theorem isCurrentShape_spec {s : String} (h : isCurrentShape s = true) :
    s.data.length = currentLength ∧ ∀ c ∈ s.data, c ∈ lowerAlpha := by
  unfold isCurrentShape at h
  simpa using h

theorem isLegacyShape_spec {s : String} (h : isLegacyShape s = true) :
    s.data.length = legacyLength ∧ ∀ c ∈ s.data, c ∈ digitChars := by
  unfold isLegacyShape at h
  simpa using h

theorem fromString_legacy {s : String} (h : isLegacyShape s = true) :
    ProjectId.fromString s =
      some ⟨decodeWith 10 (fun c => digitChars.indexOf c) s.data, true⟩ := by
  unfold ProjectId.fromString
  simp [h]

theorem fromString_current {s : String} (h : isCurrentShape s = true) :
    ProjectId.fromString s =
      some ⟨decodeWith 26 (fun c => lowerAlpha.indexOf c) s.data, false⟩ := by
  have hleg : isLegacyShape s = false := by
    obtain ⟨h1, _⟩ := isCurrentShape_spec h
    unfold isLegacyShape
    simp [h1, currentLength, legacyLength]
  unfold ProjectId.fromString
  simp [h, hleg]

theorem legacy_value_lt {s : String} (h : isLegacyShape s = true) :
    decodeWith 10 (fun c => digitChars.indexOf c) s.data < 10 ^ legacyLength := by
  obtain ⟨h1, h2⟩ := isLegacyShape_spec h
  have := decodeWith_lt 10 (fun c => digitChars.indexOf c) s.data
    (fun c hc => digit_facts c (h2 c hc))
  rw [h1] at this
  exact this

theorem render_current_roundtrip {s : String} (h : isCurrentShape s = true) :
    ProjectId.render ⟨decodeWith 26 (fun c => lowerAlpha.indexOf c) s.data, false⟩ = s := by
  obtain ⟨h1, h2⟩ := isCurrentShape_spec h
  unfold ProjectId.render
  rw [← h1]
  rw [encode_decodeWith 26 (fun c => lowerAlpha.indexOf c) (fun d => lowerAlpha.getD d 'a')
    (by norm_num) s.data
    (fun c hc => (lower_facts c (h2 c hc)).1)
    (fun c hc => (lower_facts c (h2 c hc)).2)]

theorem render_fromString {p : ProjectId} (hv : p.value < 26 ^ currentLength) :
    ProjectId.fromString p.render = some ⟨p.value, false⟩ := by
  have hdata : p.render.data = encodeWith 26 (fun d => lowerAlpha.getD d 'a') currentLength p.value := rfl
  have hlen : p.render.data.length = currentLength := by
    rw [hdata, encodeWith_length]
  have hmem : ∀ c ∈ p.render.data, c ∈ lowerAlpha := by
    intro c hc
    rw [hdata] at hc
    rcases encodeWith_mem 26 (fun d => lowerAlpha.getD d 'a') (by norm_num)
      currentLength p.value c hc with ⟨d, hd, rfl⟩
    exact (lower_getD_facts d hd).2
  have hcur : isCurrentShape p.render = true := by
    unfold isCurrentShape
    simp only [hlen]
    simpa using hmem
  have hleg : isLegacyShape p.render = false := by
    unfold isLegacyShape
    simp [hlen, currentLength, legacyLength]
  rw [fromString_current hcur, hdata]
  rw [decode_encodeWith 26 (fun c => lowerAlpha.indexOf c) (fun d => lowerAlpha.getD d 'a')
    (by norm_num) (fun d hd => (lower_getD_facts d hd).1) currentLength p.value hv]

theorem fromString_old_inv {s : String} {pid : ProjectId}
    (hp : ProjectId.fromString s = some pid) (ho : pid.is_old = true) :
    isLegacyShape s = true ∧
      pid = ⟨decodeWith 10 (fun c => digitChars.indexOf c) s.data, true⟩ := by
  cases hleg : isLegacyShape s with
  | true =>
    rw [fromString_legacy hleg] at hp
    cases hp
    exact ⟨rfl, rfl⟩
  | false =>
    exfalso
    cases hcur : isCurrentShape s with
    | true =>
      rw [fromString_current hcur] at hp
      cases hp
      cases ho
    | false =>
      unfold ProjectId.fromString at hp
      rw [hleg, hcur] at hp
      cases hp

/-- C7 counterexample: the legacy-shape text "123456" parses to a legacy
project id, but rendering that id produces its equivalent current-shape
text, not the original legacy text, so the legacy round-trip fails. -/
theorem legacy_roundtrip_counterexample :
    ProjectId.fromString "123456" = some ⟨123456, true⟩ ∧
    ProjectId.render ⟨123456, true⟩ ≠ "123456" := by
  exact ⟨rfl, by decide⟩

/-- C7 (amended): for every valid current-shape text the parse/render
round-trip returns the original text; a valid legacy-shape text still
parses (to an id flagged legacy), but rendering that id yields the
equivalent current-shape text -- which parses back to the same underlying
project in current shape -- rather than the original legacy text. -/
theorem projectid_roundtrip_amended :
    (∀ s : String, isCurrentShape s = true →
      ∃ p : ProjectId, ProjectId.fromString s = some p ∧ p.is_old = false ∧ p.render = s) ∧
    (∀ (s : String) (p : ProjectId), isLegacyShape s = true →
      ProjectId.fromString s = some p →
      p.is_old = true ∧ p.render ≠ s ∧
        ProjectId.fromString p.render = some ⟨p.value, false⟩) := by
  constructor
  · intro s h
    exact ⟨_, fromString_current h, rfl, render_current_roundtrip h⟩
  · intro s p h hp
    rw [fromString_legacy h] at hp
    cases hp
    have hv : decodeWith 10 (fun c => digitChars.indexOf c) s.data < 26 ^ currentLength := by
      have h1 := legacy_value_lt h
      have h2 : (10 : Nat) ^ legacyLength ≤ 26 ^ currentLength := by norm_num [legacyLength, currentLength]
      omega
    refine ⟨rfl, ?_, render_fromString hv⟩
    intro he
    have hlen : (ProjectId.render ⟨decodeWith 10 (fun c => digitChars.indexOf c) s.data,
        true⟩).data.length = s.data.length := by
      rw [he]
    have hrl : (ProjectId.render ⟨decodeWith 10 (fun c => digitChars.indexOf c) s.data,
        true⟩).data.length = currentLength := by
      show (encodeWith 26 (fun d => lowerAlpha.getD d 'a') currentLength _).length = currentLength
      rw [encodeWith_length]
    have hsl := (isLegacyShape_spec h).1
    rw [hrl, hsl] at hlen
    norm_num [currentLength, legacyLength] at hlen

/-- C7 witness: the amended round-trip facts at concrete texts of both
shapes. -/
theorem projectid_roundtrip_amended_witness :
    (∃ p : ProjectId, ProjectId.fromString "abcdefgh" = some p ∧
      p.is_old = false ∧ p.render = "abcdefgh") ∧
    ((⟨123450, true⟩ : ProjectId).is_old = true ∧
      ProjectId.render ⟨123450, true⟩ ≠ "123450" ∧
      ProjectId.fromString (ProjectId.render ⟨123450, true⟩) = some ⟨123450, false⟩) :=
  ⟨projectid_roundtrip_amended.1 "abcdefgh" (by decide),
   projectid_roundtrip_amended.2 "123450" ⟨123450, true⟩ (by decide) (by decide)⟩

/-- C6: a request resolving to a legacy-shape project id is answered by
both page routes with a permanent 301 redirect whose URL re-renders the id
in the equivalent current shape (same underlying project, current flag);
legacy texts are never rejected by the parser, and revision lookups behave
identically under either encoding of the same project. -/
theorem legacy_redirect_current_shape :
    (∀ s : String, isLegacyShape s = true →
      ProjectId.fromString s =
        some ⟨decodeWith 10 (fun c => digitChars.indexOf c) s.data, true⟩) ∧
    (∀ (host : String) (st : Store) (s : String) (pid : ProjectId) (n : Nat),
      ProjectId.fromString s = some pid → pid.is_old = true →
      existingRoute host st pid n = .redirect301 ("/" ++ pid.render ++ "/" ++ toString n) ∧
      embedRoute host st pid n = .redirect301 ("/embed/" ++ pid.render ++ "/" ++ toString n) ∧
      ProjectId.fromString pid.render = some ⟨pid.value, false⟩) ∧
    (∀ (st : Store) (v : Nat) (m : Int),
      getRevision st ⟨⟨v, true⟩, m⟩ = getRevision st ⟨⟨v, false⟩, m⟩) := by
  refine ⟨fun s h => fromString_legacy h, ?_, fun st v m => rfl⟩
  intro host st s pid n hp ho
  obtain ⟨hleg, hpid⟩ := fromString_old_inv hp ho
  have hv : pid.value < 26 ^ currentLength := by
    have h1 := legacy_value_lt hleg
    have h2 : (10 : Nat) ^ legacyLength ≤ 26 ^ currentLength := by
      norm_num [legacyLength, currentLength]
    have h3 : pid.value = decodeWith 10 (fun c => digitChars.indexOf c) s.data := by
      rw [hpid]
    omega
  refine ⟨?_, ?_, render_fromString hv⟩
  · unfold existingRoute
    rw [if_pos ho]
  · unfold embedRoute
    rw [if_pos ho]

/-- C6 witness: the legacy redirect behaviour at a concrete legacy text. -/
theorem legacy_redirect_current_shape_witness :
    existingRoute "H" [] ⟨123456, true⟩ 0 =
      .redirect301 ("/" ++ ProjectId.render ⟨123456, true⟩ ++ "/" ++ toString 0) ∧
    embedRoute "H" [] ⟨123456, true⟩ 0 =
      .redirect301 ("/embed/" ++ ProjectId.render ⟨123456, true⟩ ++ "/" ++ toString 0) ∧
    ProjectId.fromString (ProjectId.render ⟨123456, true⟩) = some ⟨123456, false⟩ :=
  legacy_redirect_current_shape.2.1 "H" [] "123456" ⟨123456, true⟩ 0 (by decide) rfl

/-- C10: whenever `oembed` answers successfully, the response's `width`
and `height` fields hold the literal strings "width" and "height" no
matter what dimensions were requested, while the embedded iframe markup
uses the numeric dimensions computed by `dimVal`, which fall back to 800
and 400 when the corresponding query parameter is absent or
non-numeric. -/
theorem oembed_literal_width_height :
    ∀ (host : String) (st : Store) (purl : ParsedUrl) (wp hp : Option String)
      (r : OembedResponse),
      oembed host st purl wp hp = .ok r →
      r.width = "width" ∧ r.height = "height" ∧
      (∃ (pid : ProjectId) (rn : Int) (rev : Revision),
        getRevision st ⟨pid, rn⟩ = some rev ∧ r.title = rev.title ∧
        r.html = iframeHtml host pid rn (dimVal 800 wp) (dimVal 400 hp)) ∧
      dimVal 800 none = 800 ∧ dimVal 400 none = 400 ∧
      (∀ s, pyParseInt s = none →
        dimVal 800 (some s) = 800 ∧ dimVal 400 (some s) = 400) := by
  intro host st purl wp hp r h
  unfold oembed at h
  dsimp only at h
  repeat' split at h
  all_goals try cases h
  refine ⟨rfl, rfl, ⟨_, _, _, by assumption, rfl, rfl⟩, rfl, rfl, ?_⟩
  intro s hs
  exact ⟨by simp [dimVal, hs], by simp [dimVal, hs]⟩

/-- C10 witness: a concrete successful oembed request with no dimension
parameters yields the literal string fields and the 800x400 iframe. -/
theorem oembed_literal_width_height_witness :
    ∃ r : OembedResponse,
      oembed "H" [((0, 0), ⟨"T", "D"⟩)] ⟨some "ellie-app.com", "/aaaaaaaa/0"⟩ none none =
        .ok r ∧
      r.width = "width" ∧ r.height = "height" := by
  have h : oembed "H" [((0, 0), ⟨"T", "D"⟩)] ⟨some "ellie-app.com", "/aaaaaaaa/0"⟩ none none =
      .ok ⟨"width", "height", "rich", "1.0", "T", "ellie-app.com", "https://ellie-app.com",
        iframeHtml "H" ⟨0, false⟩ 0 800 400⟩ := rfl
  have h2 := oembed_literal_width_height "H" [((0, 0), ⟨"T", "D"⟩)]
    ⟨some "ellie-app.com", "/aaaaaaaa/0"⟩ none none _ h
  exact ⟨_, h, h2.1, h2.2.1⟩

end Ellie
